import Mathlib

/-!
Shallow embedding of the bob project manager (src/main.rs).

The embedding covers the registry data model (ProjectTask, Project, App),
the message-driven update loop, the supervisor handle map, the two-phase
task executor log aggregation, the manifest reconciliation and the
drag-reorder selection remapping.  External effects (filesystem reads,
process spawning, the bun download) are represented by message payloads
carrying the externally observed data, so that every state transition of
the Rust `update` function is a pure Lean function on `App`.
-/

/-- One task of a project (struct `ProjectTask`, main.rs lines 124-133). -/
structure ProjectTask where
  name : String
  running : Bool
  logs : List String
  failed : Bool
  deriving DecidableEq, Repr

/-- A project (struct `Project`, main.rs lines 136-143). -/
structure Project where
  name : String
  path : String
  tasks : List ProjectTask
  hidden : Bool
  deriving DecidableEq, Repr

/-- Main application state (struct `App`, main.rs lines 158-167).  The
`processes` HashMap carries opaque process handles; only its key set is
observable by the state logic (`has_running_tasks` reads keys, removal is
by key, and no handler ever inserts), so it is embedded as the list of
keys.  `left_panel_width` is an `f32` in the source, embedded as `Rat`. -/
structure App where
  projects : List Project
  selected_task : Option (Nat × Nat)
  dragging_project : Option Nat
  processes : List (Nat × Nat)
  bun_path : Option String
  bun_downloading : Bool
  left_panel_width : Rat
  dragging_divider : Bool
  deriving DecidableEq, Repr

-- ============================================================================
-- Log line constants (the format! strings of main.rs)
-- ============================================================================

/-- `format!("[INFO] Task '{}' ready", name)` (main.rs lines 388, 726). -/
def readyLine (name : String) : String :=
  "[INFO] Task \x27" ++ name ++ "\x27 ready"

/-- `format!("[INFO] Starting task '{}'...", name)` (main.rs line 781). -/
def startingLine (name : String) : String :=
  "[INFO] Starting task \x27" ++ name ++ "\x27..."

/-- `format!("[INFO] Task '{}' stopped", name)` (main.rs line 953). -/
def stoppedLine (name : String) : String :=
  "[INFO] Task \x27" ++ name ++ "\x27 stopped"

/-- `format!("[INFO] Task '{}' {}", name, status)` with status
`"completed successfully"` or `"failed"` (main.rs lines 1053-1054). -/
def terminalLine (name : String) (success : Bool) : String :=
  "[INFO] Task \x27" ++ name ++ "\x27 " ++
    (if success then "completed successfully" else "failed")

/-- `"[INFO] Running bun install..."` (main.rs line 792). -/
def installMarker : String := "[INFO] Running bun install..."

/-- The install status line pushed after draining the install streams
(main.rs lines 852-857). -/
def installStatusLine (installSuccess : Bool) : String :=
  if installSuccess then "[INFO] Dependencies installed successfully"
  else "[WARN] bun install completed with errors, continuing anyway..."

/-- `format!("[WARN] Failed to run bun install: {}", e)` (main.rs line 860). -/
def installSpawnFailLine (e : String) : String :=
  "[WARN] Failed to run bun install: " ++ e

/-- `format!("[INFO] Running task '{}'...", task_name)` (main.rs line 865). -/
def runMarker (name : String) : String :=
  "[INFO] Running task \x27" ++ name ++ "\x27..."

/-- `format!("[ERROR] Failed to start: {}", e)` (main.rs line 878). -/
def runSpawnFailLine (e : String) : String :=
  "[ERROR] Failed to start: " ++ e

/-- `format!("[STDERR] {}", line)` applied to run-phase stderr lines
(main.rs line 908). -/
def stderrLine (line : String) : String := "[STDERR] " ++ line

-- ============================================================================
-- Two-phase executor (the async block spawned in start_task_process,
-- main.rs lines 788-935)
-- ============================================================================

/-- Observable behaviour of one spawned phase process: the fully drained
stdout and stderr line streams, and `status.map(success).unwrap_or(false)`
for the awaited exit status (main.rs lines 852, 932). -/
structure PhaseOutput where
  stdout : List String
  stderr : List String
  exitSuccess : Bool
  deriving DecidableEq, Repr

/-- The install-phase portion of `output_lines` (main.rs lines 792-862):
the marker line; then on a successful spawn the drained stdout, the
drained stderr and a status line; on a spawn failure a single warning
line.  `Except.error e` models `Command::spawn` returning `Err(e)`. -/
def installLog (install : Except String PhaseOutput) : List String :=
  installMarker ::
    (match install with
     | Except.ok p => p.stdout ++ p.stderr ++ [installStatusLine p.exitSuccess]
     | Except.error e => [installSpawnFailLine e])

/-- Completion payload `(success, output_lines)` of the spawned executor
(main.rs lines 788-935): install phase, run marker, then either an error
line on run-spawn failure (returning `success = false`), or the drained
run stdout followed by the tagged run stderr, with `success` taken from
the run-phase exit status alone. -/
def runTaskOutput (taskName : String)
    (install run : Except String PhaseOutput) : Bool × List String :=
  let pre := installLog install ++ [runMarker taskName]
  match run with
  | Except.error e => (false, pre ++ [runSpawnFailLine e])
  | Except.ok p => (p.exitSuccess, pre ++ p.stdout ++ p.stderr.map stderrLine)

/-- The run-phase exit condition the source reduces an invocation outcome
to: `status.map(|s| s.success()).unwrap_or(false)` on a successful spawn,
`false` on a spawn failure (main.rs lines 876-881, 932). -/
def runPhaseSuccess (run : Except String PhaseOutput) : Bool :=
  match run with
  | Except.ok p => p.exitSuccess
  | Except.error _ => false

-- ============================================================================
-- Manifest reconciliation (refresh_project_tasks, main.rs lines 366-409)
-- ============================================================================

/-- The value type of the `existing_tasks` HashMap: `(running, logs)`. -/
abbrev TaskState := Bool × List String

/-- The `existing_tasks` HashMap, embedded as an association list with
unique keys. -/
abbrev TaskMap := List (String × TaskState)

/-- Dropping every entry with the given key (the effect on the other
entries of a HashMap insert or remove). -/
def mapDropKey (m : TaskMap) (k : String) : TaskMap :=
  m.filter (fun kv => kv.1 != k)

/-- HashMap insert: the new binding shadows (replaces) any previous
binding of the key. -/
def taskMapInsert (m : TaskMap) (k : String) (v : TaskState) : TaskMap :=
  (k, v) :: mapDropKey m k

/-- HashMap lookup by key. -/
def mapLookup (m : TaskMap) (k : String) : Option TaskState :=
  (m.find? (fun kv => kv.1 == k)).map (fun kv => kv.2)

/-- `project.tasks.iter().map(|t| (t.name, (t.running, t.logs))).collect()`
(main.rs lines 377-381): successive inserts, later entries shadowing
earlier ones. -/
def taskMap (prior : List ProjectTask) : TaskMap :=
  prior.foldl (fun m t => taskMapInsert m t.name (t.running, t.logs)) []

/-- The `scripts.keys().map(...)` closure of main.rs lines 383-397,
with the threaded `existing_tasks.remove(name)`: a carried-over name
keeps its recorded running flag and logs, a fresh name gets
`running = false` and a single ready line; `failed` is always `false`. -/
def rebuildGo (m : TaskMap) : List String → List ProjectTask
  | [] => []
  | n :: rest =>
    match mapLookup m n with
    | some (r, ls) =>
        { name := n, running := r, logs := ls, failed := false } ::
          rebuildGo (mapDropKey m n) rest
    | none =>
        { name := n, running := false, logs := [readyLine n], failed := false } ::
          rebuildGo m rest

/-- The new task list computed by `refresh_project_tasks` from the
manifest script names and the prior task list (main.rs lines 377-397). -/
def rebuildTasks (scripts : List String) (prior : List ProjectTask) : List ProjectTask :=
  rebuildGo (taskMap prior) scripts

/-- Effect of one reconciliation on the matched project (main.rs lines
371-401).  `manifest = none`: the package.json read or parse failed,
project untouched.  `manifest = some none`: parsed but no `scripts`
object, only `hidden` is cleared.  `manifest = some (some scripts)`:
tasks are rebuilt and `hidden` is cleared. -/
def applyManifest (manifest : Option (Option (List String))) (p : Project) : Project :=
  match manifest with
  | none => p
  | some none => { p with hidden := false }
  | some (some scripts) =>
      { p with tasks := rebuildTasks scripts p.tasks, hidden := false }

/-- `refresh_project_tasks` walks the project list and updates the first
project whose path equals the changed directory, then breaks
(main.rs lines 369-405). -/
def refreshTasksList (dir : String) (manifest : Option (Option (List String))) :
    List Project → List Project
  | [] => []
  | p :: ps =>
    if p.path = dir then applyManifest manifest p :: ps
    else p :: refreshTasksList dir manifest ps

-- ============================================================================
-- Supervisor state operations
-- ============================================================================

/-- In-place update of the i-th element, a no-op when the index is out of
range (the `if let Some(x) = v.get_mut(i)` pattern of the source). -/
def updateNth (f : α → α) : Nat → List α → List α
  | _, [] => []
  | 0, x :: xs => f x :: xs
  | n + 1, x :: xs => x :: updateNth f n xs

/-- Apply `f` to task `t` of project `p` when both indices are in range
(the nested `get_mut` chains of main.rs). -/
def updateTaskAt (ps : List Project) (p t : Nat) (f : ProjectTask → ProjectTask) :
    List Project :=
  updateNth (fun proj => { proj with tasks := updateNth f t proj.tasks }) p ps

/-- `self.processes.remove(&(p, t))`: the key is dropped from the key
set (keys are unique, so the filter removes at most one entry). -/
def removeKey (m : List (Nat × Nat)) (k : Nat × Nat) : List (Nat × Nat) :=
  m.filter (fun x => x != k)

/-- `has_running_tasks` (main.rs lines 353-355): whether any key of the
process handle map has the given project index as first component. -/
def has_running_tasks (a : App) (projIdx : Nat) : Bool :=
  a.processes.any (fun k => k.1 == projIdx)

/-- State effect of `start_task_process` (main.rs lines 759-945).  With
no bun path: trigger the download once (set `bun_downloading`), else do
nothing.  With a bun path: mark the task running and replace its log by
a single starting line (`logs.clear(); logs.push(...)`), then spawn the
executor.  The handle map is not consulted and not modified. -/
def start_task_process (a : App) (p t : Nat) : App :=
  match a.bun_path with
  | none => if a.bun_downloading then a else { a with bun_downloading := true }
  | some _ =>
      { a with
        projects := updateTaskAt a.projects p t (fun task =>
          { task with running := true, logs := [startingLine task.name] }) }

/-- State effect of `stop_task_process` (main.rs lines 948-967): when a
handle for the identity exists it is removed, the task is marked not
running and a stopped line is appended; otherwise nothing happens. -/
def stop_task_process (a : App) (p t : Nat) : App :=
  if (p, t) ∈ a.processes then
    { a with
      processes := removeKey a.processes (p, t),
      projects := updateTaskAt a.projects p t (fun task =>
        { task with running := false, logs := task.logs ++ [stoppedLine task.name] }) }
  else a

-- ============================================================================
-- Reorder remapping (main.rs lines 744-756 and 1067-1081)
-- ============================================================================

/-- `update_selected_after_reorder` (main.rs lines 744-756), the match on
the selected project index. -/
def update_selected_after_reorder (sel : Option (Nat × Nat)) (fromIdx toIdx : Nat) :
    Option (Nat × Nat) :=
  match sel with
  | none => none
  | some (idx, taskIdx) =>
      some
        (if idx = fromIdx then toIdx
         else if fromIdx < toIdx ∧ idx > fromIdx ∧ idx ≤ toIdx then idx - 1
         else if fromIdx > toIdx ∧ idx ≥ toIdx ∧ idx < fromIdx then idx + 1
         else idx,
         taskIdx)

/-- The remapping formula as the specification words it: a reference equal
to `A` becomes `B`; with `A < B` a reference in `(A, B]` is decremented;
with `A > B` a reference in `[B, A)` is incremented; otherwise it is
unchanged.  Stated separately from the source-derived
`update_selected_after_reorder` for comparison. -/
def selection_remap_spec (A B i : Nat) : Nat :=
  if i = A then B
  else if A < B ∧ A < i ∧ i ≤ B then i - 1
  else if B < A ∧ B ≤ i ∧ i < A then i + 1
  else i

/-- `Vec::insert` at an index (appends when the index is past the end;
the source only calls it with an in-range index). -/
def listInsertAt : Nat → α → List α → List α
  | 0, a, l => a :: l
  | _ + 1, a, [] => [a]
  | n + 1, a, x :: xs => x :: listInsertAt n a xs

/-- `let project = self.projects.remove(from); self.projects.insert(to, project)`
(main.rs lines 1073-1074). -/
def moveProject (l : List Project) (i j : Nat) : List Project :=
  match l.get? i with
  | some x => listInsertAt j x (l.eraseIdx i)
  | none => l

-- ============================================================================
-- The update loop (App::update, main.rs lines 970-1121)
-- ============================================================================

/-- Application messages (main.rs lines 86-117).  Payloads that the Rust
handlers obtain from the environment (file dialog result and manifest
parse for an import, manifest parse for a change event, package.json
existence for visibility, the cached bun path) are carried in the
message, so the handlers stay pure.  `ImportProjectSelected none` covers
a cancelled dialog as well as a rejected, unreadable or unparsable file;
`some (name, path, scripts)` is an accepted import (a missing `scripts`
object yields the empty script list, main.rs lines 718-731). -/
inductive Message where
  | ImportProject
  | ImportProjectSelected (r : Option (String × String × List String))
  | CreateProject
  | RemoveProject (idx : Nat)
  | SelectTask (p t : Nat)
  | StartTask (p t : Nat)
  | StopTask (p t : Nat)
  | TaskOutput (p t : Nat) (line : String)
  | TaskCompleted (p t : Nat) (success : Bool) (lines : List String)
  | ProjectDragStart (idx : Nat)
  | ProjectDragEnd
  | ProjectHovered (idx : Nat)
  | DividerDragStart
  | DividerDragging (x : Rat)
  | DividerDragEnd
  | BunDownloadProgress
  | BunReady (found : Option String)
  | FileChanged (fileName dir : String) (manifest : Option (Option (List String)))
      (packageJsonExists : String → Bool)
  | RefreshProjects (packageJsonExists : String → Bool)

/-- A freshly imported task (main.rs lines 722-728). -/
def importedTask (n : String) : ProjectTask :=
  { name := n, running := false, logs := [readyLine n], failed := false }

/-- `refresh_project_visibility` (main.rs lines 358-363): `hidden` is
recomputed for every project from the existence of its package.json. -/
def refresh_project_visibility (a : App) (packageJsonExists : String → Bool) : App :=
  { a with projects := a.projects.map (fun p => { p with hidden := !packageJsonExists p.path }) }

/-- `App::update` (main.rs lines 970-1121), the state transition for each
message.  Returned iced commands (dialog, spawn, kill, download) only feed
later messages and are dropped here. -/
def update (a : App) (m : Message) : App :=
  match m with
  | Message.ImportProject => a
  | Message.ImportProjectSelected none => a
  | Message.ImportProjectSelected (some (name, path, scripts)) =>
      { a with
        projects := a.projects ++
          [{ name := name, path := path, tasks := scripts.map importedTask,
             hidden := false }] }
  | Message.CreateProject =>
      { a with
        projects := a.projects ++
          [{ name := "New Project " ++ toString (a.projects.length + 1),
             path := "",
             tasks := [{ name := "Task 1", running := false,
                         logs := ["[INFO] Task created"], failed := false }],
             hidden := true }],
        selected_task := some (a.projects.length, 0) }
  | Message.RemoveProject idx =>
      if idx < a.projects.length ∧ has_running_tasks a idx = false then
        { a with
          projects := a.projects.eraseIdx idx,
          selected_task :=
            match a.selected_task with
            | some (proj, taskIdx) =>
                if proj = idx then none
                else if proj > idx then some (proj - 1, taskIdx)
                else some (proj, taskIdx)
            | none => none }
      else a
  | Message.SelectTask p t => { a with selected_task := some (p, t) }
  | Message.StartTask p t => start_task_process a p t
  | Message.StopTask p t => stop_task_process a p t
  | Message.TaskOutput p t line =>
      { a with
        projects := updateTaskAt a.projects p t (fun task =>
          { task with logs := task.logs ++ [line] }) }
  | Message.TaskCompleted p t success lines =>
      { a with
        processes := removeKey a.processes (p, t),
        projects := updateTaskAt a.projects p t (fun task =>
          { task with
            running := false,
            failed := !success,
            logs := task.logs ++ lines ++ [terminalLine task.name success] }) }
  | Message.ProjectDragStart idx => { a with dragging_project := some idx }
  | Message.ProjectDragEnd => { a with dragging_project := none }
  | Message.ProjectHovered toIdx =>
      match a.dragging_project with
      | some fromIdx =>
          if fromIdx ≠ toIdx ∧ fromIdx < a.projects.length ∧ toIdx < a.projects.length then
            { a with
              projects := moveProject a.projects fromIdx toIdx,
              selected_task := update_selected_after_reorder a.selected_task fromIdx toIdx,
              dragging_project := some toIdx }
          else a
      | none => a
  | Message.DividerDragStart => { a with dragging_divider := true }
  | Message.DividerDragging x =>
      if a.dragging_divider then { a with left_panel_width := min (max x 200) 800 } else a
  | Message.DividerDragEnd => { a with dragging_divider := false }
  | Message.BunDownloadProgress => a
  | Message.BunReady found => { a with bun_path := found, bun_downloading := false }
  | Message.FileChanged fileName dir manifest packageJsonExists =>
      refresh_project_visibility
        (if fileName = "package.json" then
          { a with projects := refreshTasksList dir manifest a.projects }
         else a)
        packageJsonExists
  | Message.RefreshProjects packageJsonExists =>
      refresh_project_visibility a packageJsonExists

/-- The startup state (`App::default`, main.rs lines 258-281): projects
come from the stored config with `hidden` recomputed, the bun path from
the cache probe, everything else is fixed; the process map is empty. -/
def initialApp (projects : List Project) (bunPath : Option String) : App :=
  { projects := projects,
    selected_task := none,
    dragging_project := none,
    processes := [],
    bun_path := bunPath,
    bun_downloading := false,
    left_panel_width := 300,
    dragging_divider := false }

/-- States reachable from some startup state by message steps. -/
inductive Reachable : App → Prop
  | init (ps : List Project) (bun : Option String) : Reachable (initialApp ps bun)
  | step (a : App) (m : Message) : Reachable a → Reachable (update a m)

-- ============================================================================
-- Concrete states used by the claim theorems
-- ============================================================================

/-- A state whose only task is running and whose handle map holds the
matching key, with the bun path available. -/
def doubleStartApp : App :=
  { projects :=
      [{ name := "P", path := "/p",
         tasks := [{ name := "dev", running := true, logs := ["old output"], failed := false }],
         hidden := false }],
    selected_task := none, dragging_project := none,
    processes := [(0, 0)],
    bun_path := some "/cache/bun", bun_downloading := false,
    left_panel_width := 300, dragging_divider := false }

/-- A state whose only task is running while the handle map is empty;
this is exactly the shape every reachable running task has, since no
handler ever inserts a handle. -/
def runningNoHandleApp : App :=
  { projects :=
      [{ name := "P", path := "/p",
         tasks := [{ name := "dev", running := true, logs := ["line1"], failed := false }],
         hidden := false }],
    selected_task := none, dragging_project := none,
    processes := [],
    bun_path := some "/cache/bun", bun_downloading := false,
    left_panel_width := 300, dragging_divider := false }

/-- A state with one project whose only task is running, handle map
empty. -/
def removalApp : App :=
  { projects :=
      [{ name := "P", path := "/p",
         tasks := [{ name := "dev", running := true, logs := ["l"], failed := false }],
         hidden := false }],
    selected_task := none, dragging_project := none,
    processes := [],
    bun_path := none, bun_downloading := false,
    left_panel_width := 300, dragging_divider := false }

/-- A state with no handle for task (0, 0). -/
def stopNoopApp : App :=
  { projects :=
      [{ name := "P", path := "/p",
         tasks := [{ name := "dev", running := true, logs := ["l1"], failed := true }],
         hidden := false }],
    selected_task := some (0, 0), dragging_project := none,
    processes := [],
    bun_path := some "/cache/bun", bun_downloading := false,
    left_panel_width := 300, dragging_divider := false }

/-- Three projects with the middle one selected and the first being
dragged. -/
def reorderApp : App :=
  { projects :=
      [{ name := "P0", path := "/p0", tasks := [], hidden := false },
       { name := "P1", path := "/p1", tasks := [], hidden := false },
       { name := "P2", path := "/p2", tasks := [], hidden := false }],
    selected_task := some (1, 0), dragging_project := some 0,
    processes := [], bun_path := none, bun_downloading := false,
    left_panel_width := 300, dragging_divider := false }

/-- The prior task list of the reconciliation example of the spec. -/
def priorExample : List ProjectTask :=
  [{ name := "build", running := true, logs := ["x"], failed := false },
   { name := "lint", running := false, logs := ["y"], failed := false }]

/-- The pointwise form of one reconciled task: a name found in the prior
list keeps its running flag and logs with `failed` reset, a fresh name is
initialized not running with a single ready line. -/
def reconciledTask (prior : List ProjectTask) (n : String) : ProjectTask :=
  match prior.find? (fun t => t.name == n) with
  | some t => { name := n, running := t.running, logs := t.logs, failed := false }
  | none => { name := n, running := false, logs := [readyLine n], failed := false }

-- ============================================================================
-- Helper lemmas
-- ============================================================================

theorem find?_filter_compat {α : Type} (l : List α) (p q : α → Bool)
    (h : ∀ a, q a = true → p a = true) :
    (l.filter p).find? q = l.find? q := by
  induction l with
  | nil => rfl
  | cons x xs ih =>
      by_cases hq : q x = true
      · simp [List.filter_cons, h x hq, List.find?_cons, hq]
      · by_cases hp : p x = true <;>
          simp [List.filter_cons, hp, List.find?_cons, hq, ih]

theorem find?_filter_incompat {α : Type} (l : List α) (p q : α → Bool)
    (h : ∀ a, p a = true → q a = false) :
    (l.filter p).find? q = none := by
  induction l with
  | nil => rfl
  | cons x xs ih =>
      by_cases hp : p x = true
      · simp [List.filter_cons, hp, List.find?_cons, h x hp, ih]
      · simp [List.filter_cons, hp, ih]

theorem mapLookup_dropKey (m : TaskMap) (k n : String) :
    mapLookup (mapDropKey m k) n = if n = k then none else mapLookup m n := by
  by_cases h : n = k
  · subst h
    simp only [mapLookup, mapDropKey, if_pos rfl]
    rw [find?_filter_incompat]
    · rfl
    · intro a ha
      simp only [bne_iff_ne, ne_eq, decide_eq_true_eq] at ha
      simp [ha]
  · rw [if_neg h]
    simp only [mapLookup, mapDropKey]
    rw [find?_filter_compat]
    intro a ha
    simp only [beq_iff_eq] at ha
    simp [ha, h]

theorem mapLookup_insert_self (m : TaskMap) (k : String) (v : TaskState) :
    mapLookup (taskMapInsert m k v) k = some v := by
  simp [mapLookup, taskMapInsert, List.find?_cons]

theorem mapLookup_insert_ne (m : TaskMap) (k n : String) (v : TaskState) (h : ¬ n = k) :
    mapLookup (taskMapInsert m k v) n = mapLookup m n := by
  have hkn : (k == n) = false := by
    simp only [beq_eq_false_iff_ne, ne_eq]
    intro hc; exact h hc.symm
  simp only [mapLookup, taskMapInsert, List.find?_cons, hkn]
  have := mapLookup_dropKey m k n
  rw [if_neg h] at this
  simpa [mapLookup, mapDropKey] using this

theorem find?_name_none (prior : List ProjectTask) (n : String)
    (h : ¬ n ∈ prior.map (fun t => t.name)) :
    prior.find? (fun t => t.name == n) = none := by
  induction prior with
  | nil => rfl
  | cons t rest ih =>
      simp only [List.map_cons, List.mem_cons, not_or] at h
      have hne : (t.name == n) = false := by
        simp only [beq_eq_false_iff_ne, ne_eq]
        intro hc; exact h.1 hc.symm
      simp [List.find?_cons, hne, ih h.2]

theorem taskMapAux_lookup (prior : List ProjectTask) :
    ∀ (acc : TaskMap) (n : String), (prior.map (fun t => t.name)).Nodup →
      mapLookup (prior.foldl (fun m t => taskMapInsert m t.name (t.running, t.logs)) acc) n
        = (match prior.find? (fun t => t.name == n) with
           | some t => some (t.running, t.logs)
           | none => mapLookup acc n) := by
  induction prior with
  | nil => intro acc n _; rfl
  | cons t rest ih =>
      intro acc n hnd
      simp only [List.map_cons, List.nodup_cons] at hnd
      obtain ⟨hnotin, hndrest⟩ := hnd
      simp only [List.foldl_cons]
      rw [ih _ n hndrest]
      by_cases hn : t.name = n
      · subst hn
        rw [find?_name_none rest t.name hnotin]
        simp [List.find?_cons, mapLookup_insert_self]
      · have hne : (t.name == n) = false := by
          simp only [beq_eq_false_iff_ne, ne_eq]; exact hn
        have hn2 : ¬ n = t.name := fun hc => hn hc.symm
        simp [List.find?_cons, hne, mapLookup_insert_ne _ _ _ _ hn2]

theorem taskMap_lookup (prior : List ProjectTask) (n : String)
    (h : (prior.map (fun t => t.name)).Nodup) :
    mapLookup (taskMap prior) n
      = (prior.find? (fun t => t.name == n)).map (fun t => (t.running, t.logs)) := by
  rw [taskMap, taskMapAux_lookup prior [] n h]
  cases prior.find? (fun t => t.name == n) <;> rfl

theorem map_eq_of_mem_eq {α β : Type} {f g : α → β} :
    ∀ {l : List α}, (∀ a ∈ l, f a = g a) → l.map f = l.map g := by
  intro l
  induction l with
  | nil => intro _; rfl
  | cons x xs ih =>
      intro h
      simp only [List.map_cons]
      rw [h x (List.mem_cons_self x xs), ih (fun a ha => h a (List.mem_cons_of_mem x ha))]

theorem rebuildGo_eq_map (scripts : List String) :
    ∀ (m : TaskMap), scripts.Nodup →
      rebuildGo m scripts = scripts.map (fun n =>
        match mapLookup m n with
        | some s => { name := n, running := s.1, logs := s.2, failed := false }
        | none => { name := n, running := false, logs := [readyLine n], failed := false }) := by
  induction scripts with
  | nil => intro m _; rfl
  | cons n rest ih =>
      intro m hnd
      simp only [List.nodup_cons] at hnd
      obtain ⟨hnotin, hndrest⟩ := hnd
      simp only [List.map_cons]
      cases hm : mapLookup m n with
      | some s =>
          obtain ⟨r, ls⟩ := s
          simp only [rebuildGo, hm]
          rw [ih (mapDropKey m n) hndrest]
          congr 1
          apply map_eq_of_mem_eq
          intro a ha
          have hna : ¬ a = n := fun hc => hnotin (hc ▸ ha)
          rw [mapLookup_dropKey m n a, if_neg hna]
      | none =>
          simp only [rebuildGo, hm]
          rw [ih m hndrest]

theorem rebuildTasks_eq_map (scripts : List String) (prior : List ProjectTask)
    (hs : scripts.Nodup) (hp : (prior.map (fun t => t.name)).Nodup) :
    rebuildTasks scripts prior = scripts.map (reconciledTask prior) := by
  rw [rebuildTasks, rebuildGo_eq_map scripts (taskMap prior) hs]
  apply map_eq_of_mem_eq
  intro n _
  rw [taskMap_lookup prior n hp, reconciledTask]
  cases prior.find? (fun t => t.name == n) <;> rfl

theorem rebuildGo_all_not_failed (scripts : List String) :
    ∀ m : TaskMap, ((rebuildGo m scripts).all (fun t => t.failed == false)) = true := by
  induction scripts with
  | nil => intro m; rfl
  | cons n rest ih =>
      intro m
      cases hm : mapLookup m n with
      | some s =>
          obtain ⟨r, ls⟩ := s
          simp only [rebuildGo, hm, List.all_cons, Bool.and_eq_true]
          exact ⟨rfl, ih _⟩
      | none =>
          simp only [rebuildGo, hm, List.all_cons, Bool.and_eq_true]
          exact ⟨rfl, ih _⟩

theorem update_keeps_processes_empty (a : App) (m : Message) (h : a.processes = []) :
    (update a m).processes = [] := by
  cases m with
  | ImportProject => exact h
  | ImportProjectSelected r =>
      cases r with
      | none => exact h
      | some d => obtain ⟨n, p, s⟩ := d; exact h
  | CreateProject => exact h
  | RemoveProject idx =>
      simp only [update]; split
      · exact h
      · exact h
  | SelectTask p t => exact h
  | StartTask p t =>
      simp only [update, start_task_process]
      split
      · split
        · exact h
        · exact h
      · exact h
  | StopTask p t =>
      simp only [update, stop_task_process]
      split
      · simp [removeKey, h]
      · exact h
  | TaskOutput p t line => exact h
  | TaskCompleted p t s l => simp [update, removeKey, h]
  | ProjectDragStart idx => exact h
  | ProjectDragEnd => exact h
  | ProjectHovered toIdx =>
      simp only [update]
      split
      · split
        · exact h
        · exact h
      · exact h
  | DividerDragStart => exact h
  | DividerDragging x =>
      simp only [update]; split
      · exact h
      · exact h
  | DividerDragEnd => exact h
  | BunDownloadProgress => exact h
  | BunReady found => exact h
  | FileChanged fn dir man vis =>
      simp only [update, refresh_project_visibility]
      split
      · exact h
      · exact h
  | RefreshProjects vis => exact h

-- ============================================================================
-- Claim theorems
-- ============================================================================

/-- C1: the claim that invoking start on an already-running task (with an
execution handle recorded for its identity) leaves the state unchanged is
false on the code: `start_task_process` never consults the handle map, so
in a state whose task (0, 0) is running with a recorded handle, the
`StartTask` message replaces the task log by a fresh starting line (and a
new executor is spawned); only the handle map itself is untouched. -/
theorem start_while_running_restarts :
    doubleStartApp.processes = [(0, 0)]
    ∧ (doubleStartApp.projects.all (fun proj => proj.tasks.all (fun task => task.running))) = true
    ∧ update doubleStartApp (Message.StartTask 0 0) =
        { doubleStartApp with
          projects :=
            [{ name := "P", path := "/p",
               tasks := [{ name := "dev", running := true,
                           logs := [startingLine "dev"], failed := false }],
               hidden := false }] } :=
  ⟨rfl, rfl, rfl⟩

/-- C2: the claimed stop behaviour (handle removed, running set false,
exactly one stopped line, later completion suppressed) does not happen in
the code: no handler ever inserts a handle, so stopping the running task
of a reachable-shaped state is a complete no-op, and the completion
message of the same invocation afterwards still appends its captured
output and a terminal status line unconditionally. -/
theorem stop_then_completion_still_appends :
    update runningNoHandleApp (Message.StopTask 0 0) = runningNoHandleApp
    ∧ update (update runningNoHandleApp (Message.StopTask 0 0))
        (Message.TaskCompleted 0 0 true ["out"]) =
        { runningNoHandleApp with
          projects :=
            [{ name := "P", path := "/p",
               tasks := [{ name := "dev", running := false,
                           logs := ["line1", "out", terminalLine "dev" true],
                           failed := false }],
               hidden := false }] } :=
  ⟨rfl, rfl⟩

/-- C3 counterexample: the final log is not the bare concatenation of the
four stream captures; with empty streams and successful phases it still
holds the marker and status lines. -/
theorem final_log_not_bare_concat :
    (runTaskOutput "build" (Except.ok ⟨["a"], ["b"], true⟩)
        (Except.ok ⟨["c"], ["d"], true⟩)).2
      ≠ ["a"] ++ ["b"] ++ ["c"] ++ ["d"] := by
  decide

/-- C3 (amended): for every invocation whose run phase spawns, the final
captured log is exactly the install marker line, the fully drained
install stdout, the fully drained install stderr, one install status
line (or, when the install spawn fails, one warning line in place of the
install streams and status), the run marker line, the fully drained run
stdout, and the fully drained run stderr with each line tagged — the four
streams appearing in exactly the claimed order, regardless of the install
outcome. -/
theorem final_log_phase_shape (n : String) (ip rp : PhaseOutput) (e : String) :
    runTaskOutput n (Except.ok ip) (Except.ok rp)
      = (rp.exitSuccess,
         [installMarker] ++ ip.stdout ++ ip.stderr ++ [installStatusLine ip.exitSuccess]
           ++ [runMarker n] ++ rp.stdout ++ rp.stderr.map stderrLine)
    ∧ runTaskOutput n (Except.error e) (Except.ok rp)
      = (rp.exitSuccess,
         [installMarker] ++ [installSpawnFailLine e]
           ++ [runMarker n] ++ rp.stdout ++ rp.stderr.map stderrLine) := by
  constructor <;> simp [runTaskOutput, installLog]

/-- C4: the invocation outcome is `runPhaseSuccess` of the run phase
alone, for every install result; the run marker is always reached (the
run phase is attempted regardless of the install outcome, including an
install spawn failure); and a run-phase spawn failure ends the invocation
with `success = false` and an error line recording the failure. -/
theorem outcome_determined_by_run_phase (n : String) (i : Except String PhaseOutput)
    (r : Except String PhaseOutput) (e : String) :
    (runTaskOutput n i r).1 = runPhaseSuccess r
    ∧ runMarker n ∈ (runTaskOutput n i r).2
    ∧ runTaskOutput n i (Except.error e)
        = (false, installLog i ++ [runMarker n] ++ [runSpawnFailLine e]) := by
  refine ⟨?_, ?_, ?_⟩
  · cases r <;> rfl
  · cases r <;> simp [runTaskOutput]
  · simp [runTaskOutput]

/-- C5: a drag reorder from index A to index B (A and B distinct and in
range) mutates the list by remove-then-insert and, in the same update
step, remaps the selected project index exactly as the specification
formula `selection_remap_spec` states: A becomes B, indices in (A, B]
shift down when A < B, indices in [B, A) shift up when A > B, all others
are unchanged; the task component is untouched. -/
theorem reorder_remaps_selection (a : App) (A B s t : Nat)
    (hd : a.dragging_project = some A) (hne : A ≠ B)
    (hA : A < a.projects.length) (hB : B < a.projects.length)
    (hs : a.selected_task = some (s, t)) :
    (update a (Message.ProjectHovered B)).selected_task
        = some (selection_remap_spec A B s, t)
    ∧ (update a (Message.ProjectHovered B)).projects = moveProject a.projects A B := by
  simp only [update, hd]
  rw [if_pos ⟨hne, hA, hB⟩]
  refine ⟨?_, rfl⟩
  simp only [hs, update_selected_after_reorder, selection_remap_spec]

/-- C5 witness: moving project 0 onto project 2 with project 1 selected
relocates the selection to index 0 and moves the list accordingly. -/
theorem reorder_remaps_selection_witness :
    (update reorderApp (Message.ProjectHovered 2)).selected_task
        = some (selection_remap_spec 0 2 1, 0)
    ∧ (update reorderApp (Message.ProjectHovered 2)).projects
        = moveProject reorderApp.projects 0 2 :=
  reorder_remaps_selection reorderApp 0 2 1 0 rfl (by decide) (by decide) (by decide) rfl

/-- C6: the claim that removing a project with a `running = true` task is
rejected fails on the code: the removal guard `has_running_tasks` checks
the handle map, which no handler ever populates, so in a state whose only
project has a running task the `RemoveProject` message deletes the
project from the registry. -/
theorem remove_project_with_running_task_succeeds :
    (removalApp.projects.all (fun proj => proj.tasks.all (fun task => task.running))) = true
    ∧ update removalApp (Message.RemoveProject 0) = { removalApp with projects := [] } :=
  ⟨rfl, rfl⟩

/-- C7: reconciling a project against a parsed manifest script map, with
the (always satisfied) uniqueness of script keys and of prior task names,
yields exactly one task per script name in manifest order — carried-over
names keep their running flag and logs, fresh names start not running
with a single ready line, names absent from the manifest are dropped —
and on the concrete example of the spec: scripts build and test against
prior tasks build (running, log x) and lint (log y) give back build
unchanged and a freshly initialized test. -/
theorem reconcile_tasks_characterization (scripts : List String) (prior : List ProjectTask)
    (hs : scripts.Nodup) (hp : (prior.map (fun t => t.name)).Nodup) :
    rebuildTasks scripts prior = scripts.map (reconciledTask prior)
    ∧ (rebuildTasks scripts prior).map (fun t => t.name) = scripts
    ∧ rebuildTasks ["build", "test"] priorExample
      = [{ name := "build", running := true, logs := ["x"], failed := false },
         { name := "test", running := false, logs := [readyLine "test"], failed := false }] := by
  refine ⟨rebuildTasks_eq_map scripts prior hs hp, ?_, rfl⟩
  rw [rebuildTasks_eq_map scripts prior hs hp, List.map_map]
  have hname : ∀ n ∈ scripts, ((fun t => t.name) ∘ reconciledTask prior) n = id n := by
    intro n _
    simp only [Function.comp, id, reconciledTask]
    cases prior.find? (fun t => t.name == n) <;> rfl
  rw [map_eq_of_mem_eq hname, List.map_id]

/-- C7 witness: the characterization applied to the concrete example of
the spec. -/
theorem reconcile_tasks_characterization_witness :
    rebuildTasks ["build", "test"] priorExample
      = ["build", "test"].map (reconciledTask priorExample) :=
  (reconcile_tasks_characterization ["build", "test"] priorExample
    (by decide) (by decide)).1

/-- C8: a stop request for an identity with no recorded execution handle
leaves the whole application state unchanged. -/
theorem stop_without_handle_is_noop (a : App) (p t : Nat)
    (h : (p, t) ∉ a.processes) :
    update a (Message.StopTask p t) = a := by
  simp [update, stop_task_process, h]

/-- C8 witness: stopping task (0, 0) in a state with an empty handle map
changes nothing. -/
theorem stop_without_handle_is_noop_witness :
    update stopNoopApp (Message.StopTask 0 0) = stopNoopApp :=
  stop_without_handle_is_noop stopNoopApp 0 0 (by decide)

/-- C9: in every reachable state the process handle map is empty — no
handler ever inserts into it — hence `has_running_tasks` is false for
every project index and `stop_task_process` never finds a handle and
never changes the state. -/
theorem processes_map_always_empty (a : App) (h : Reachable a) :
    a.processes = [] ∧ (∀ i, has_running_tasks a i = false) ∧
      (∀ p t, stop_task_process a p t = a) := by
  have hempty : a.processes = [] := by
    induction h with
    | init ps bun => rfl
    | step a m _ ih => exact update_keeps_processes_empty a m ih
  refine ⟨hempty, fun i => ?_, fun p t => ?_⟩
  · simp [has_running_tasks, hempty]
  · simp [stop_task_process, hempty]

/-- C9 witness: the invariant applied to a startup state. -/
theorem processes_map_always_empty_witness :
    (initialApp [] none).processes = []
    ∧ has_running_tasks (initialApp [] none) 0 = false :=
  ⟨(processes_map_always_empty (initialApp [] none) (Reachable.init [] none)).1,
   (processes_map_always_empty (initialApp [] none) (Reachable.init [] none)).2.1 0⟩

/-- C10: every task produced by a manifest reconciliation has
`failed = false` — the flag is never preserved — and on a carried-over
task whose flag was set the running flag and log survive while `failed`
is reset. -/
theorem reconcile_clears_failed_flag (scripts : List String) (prior : List ProjectTask) :
    ((rebuildTasks scripts prior).all (fun t => t.failed == false)) = true
    ∧ rebuildTasks ["build"] [{ name := "build", running := true, logs := ["x"], failed := true }]
        = [{ name := "build", running := true, logs := ["x"], failed := false }] :=
  ⟨rebuildGo_all_not_failed scripts (taskMap prior), rfl⟩
